import Mathlib

/-!
Shallow embedding of `src/net/peers.rs` (the `AddressBook` network behaviour:
peer registry, address store, connection tracker, event bus, dial/retry
policy and RTT estimator), together with theorems settling the spec claims.

Modelling conventions:
* `PeerId` is an opaque identifier, modelled as `Nat`.
* `Multiaddr` is a list of protocol segments; only the segment shapes the
  code inspects (`Ip4` at the head for the loopback test, `P2p` at the end
  for normalization) are given structure, all other segments are opaque.
* Rust's `Duration` is a `(secs, nanos)` pair; `mul`/`div`/`add` are exact
  over total nanoseconds, as in the Rust standard library.
* `FnvHashMap` is modelled as an association list with unique keys
  maintained by the operations (`lookupKey`/`setKey`/`eraseKey`).
* The global prometheus counters/gauges are modelled as fields of the
  `AddressBook` state, mutated exactly where the Rust code touches them.
* The event bus (`Vec<mpsc::UnboundedSender<Event>>`) is a list of
  subscribers, each with an id (the receiver handle), a liveness flag
  (receiver not dropped) and an inbox (the channel buffer); a successful
  `unbounded_send` appends to the inbox, a send to a dropped receiver
  fails, and `notify` retains exactly the subscribers whose send succeeds.
* Every mutation entry point returns the successor state paired with the
  list of events it notified, in order.
-/

section AssocList

variable {α β : Type} [DecidableEq α]

/-- First value stored under key `k`, as `HashMap::get`. -/
def lookupKey : List (α × β) → α → Option β
  | [], _ => none
  | (a, b) :: t, k => if a = k then some b else lookupKey t k

/-- Replace the value under `k`, or append the binding, as `HashMap::insert`. -/
def setKey : List (α × β) → α → β → List (α × β)
  | [], k, v => [(k, v)]
  | (a, b) :: t, k, v => if a = k then (k, v) :: t else (a, b) :: setKey t k v

/-- Delete every binding of `k`, as `HashMap::remove`. -/
def eraseKey : List (α × β) → α → List (α × β)
  | [], _ => []
  | (a, b) :: t, k => if a = k then eraseKey t k else (a, b) :: eraseKey t k

/-- Key membership, as `HashMap::contains_key`. -/
def containsKey (m : List (α × β)) (k : α) : Bool :=
  (lookupKey m k).isSome

theorem lookupKey_setKey_self (m : List (α × β)) (k : α) (v : β) :
    lookupKey (setKey m k v) k = some v := by
  induction m with
  | nil => simp [setKey, lookupKey]
  | cons hd t ih =>
    obtain ⟨a, b⟩ := hd
    simp only [setKey]
    by_cases ha : a = k
    · rw [if_pos ha]
      simp [lookupKey]
    · rw [if_neg ha]
      simp only [lookupKey]
      rw [if_neg ha]
      exact ih

theorem lookupKey_setKey_ne (m : List (α × β)) (k : α) (v : β) (k2 : α) (h : k2 ≠ k) :
    lookupKey (setKey m k v) k2 = lookupKey m k2 := by
  induction m with
  | nil =>
    simp only [setKey, lookupKey]
    rw [if_neg (Ne.symm h)]
  | cons hd t ih =>
    obtain ⟨a, b⟩ := hd
    simp only [setKey]
    by_cases ha : a = k
    · rw [if_pos ha]
      simp only [lookupKey]
      rw [if_neg (Ne.symm h), if_neg (fun hc => (Ne.symm h) (ha.symm.trans hc))]
    · rw [if_neg ha]
      simp only [lookupKey]
      by_cases ha2 : a = k2
      · rw [if_pos ha2, if_pos ha2]
      · rw [if_neg ha2, if_neg ha2]
        exact ih

theorem setKey_lookup_self (m : List (α × β)) (k : α) (v : β) (h : lookupKey m k = some v) :
    setKey m k v = m := by
  induction m with
  | nil => simp [lookupKey] at h
  | cons hd t ih =>
    obtain ⟨a, b⟩ := hd
    simp only [lookupKey] at h
    simp only [setKey]
    by_cases ha : a = k
    · rw [if_pos ha] at h
      injection h with hv
      rw [if_pos ha, ha, hv]
    · rw [if_neg ha] at h
      rw [if_neg ha, ih h]

theorem lookupKey_eraseKey_self (m : List (α × β)) (k : α) :
    lookupKey (eraseKey m k) k = none := by
  induction m with
  | nil => simp [eraseKey, lookupKey]
  | cons hd t ih =>
    obtain ⟨a, b⟩ := hd
    simp only [eraseKey]
    by_cases ha : a = k
    · rw [if_pos ha]
      exact ih
    · rw [if_neg ha]
      simp only [lookupKey]
      rw [if_neg ha]
      exact ih

theorem lookupKey_eraseKey_ne (m : List (α × β)) (k k2 : α) (h : k2 ≠ k) :
    lookupKey (eraseKey m k) k2 = lookupKey m k2 := by
  induction m with
  | nil => simp [eraseKey]
  | cons hd t ih =>
    obtain ⟨a, b⟩ := hd
    simp only [eraseKey]
    by_cases ha : a = k
    · rw [if_pos ha, ih]
      simp only [lookupKey]
      rw [if_neg (fun hc => (Ne.symm h) (ha.symm.trans hc))]
    · rw [if_neg ha]
      simp only [lookupKey]
      by_cases ha2 : a = k2
      · rw [if_pos ha2, if_pos ha2]
      · rw [if_neg ha2, if_neg ha2]
        exact ih

theorem lookupKey_append_none (m n : List (α × β)) (k : α) (h : lookupKey m k = none) :
    lookupKey (m ++ n) k = lookupKey n k := by
  induction m with
  | nil => simp
  | cons hd t ih =>
    obtain ⟨a, b⟩ := hd
    simp only [lookupKey] at h
    by_cases ha : a = k
    · rw [if_pos ha] at h
      exact absurd h (by simp)
    · rw [if_neg ha] at h
      simp only [List.cons_append, lookupKey]
      rw [if_neg ha]
      exact ih h

theorem allKeys_ne_of_lookup_none (m : List (α × β)) (k : α) (h : lookupKey m k = none) :
    m.all (fun x => !(decide (x.1 = k))) = true := by
  induction m with
  | nil => simp
  | cons hd t ih =>
    obtain ⟨a, b⟩ := hd
    simp only [lookupKey] at h
    by_cases ha : a = k
    · rw [if_pos ha] at h
      exact absurd h (by simp)
    · rw [if_neg ha] at h
      simp only [List.all_cons, Bool.and_eq_true]
      exact ⟨by simpa using ha, ih h⟩

end AssocList

/-- Opaque peer identity (`libp2p::PeerId`). -/
abbrev PeerId := Nat

/-- One segment of a multiaddress (`libp2p::multiaddr::Protocol`). The code
only inspects whether the first segment is `Ip4` (loopback test) and whether
the last segment is `P2p` (normalization); every other protocol is opaque. -/
inductive Proto where
  | ip4 (addr : Nat)
  | p2p (peer : PeerId)
  | other (tag : Nat)
deriving DecidableEq, Repr

/-- A multiaddress (`libp2p::Multiaddr`) as its segment list. -/
abbrev Multiaddr := List Proto

/-- `Ipv4Addr::is_loopback`: first octet is 127 (the address is the packed
32-bit value). -/
def ip4_is_loopback (a : Nat) : Bool :=
  a / 16777216 == 127

/-- `MultiaddrExt::is_loopback` from `peers.rs`: if the first segment is an
`Ip4` address that is not loopback the answer is `false`; in every other
case (loopback `Ip4` head, or no `Ip4` head at all) the answer is `true`. -/
def Multiaddr.is_loopback (a : Multiaddr) : Bool :=
  match a.head? with
  | some (Proto.ip4 ip) => ip4_is_loopback ip
  | _ => true

/-- `normalize_addr` from `peers.rs`: append the owning peer's `P2p` suffix
unless the last segment is already a `P2p` segment. -/
def normalize_addr (addr : Multiaddr) (peer : PeerId) : Multiaddr :=
  match addr.getLast? with
  | some (Proto.p2p _) => addr
  | _ => addr ++ [Proto.p2p peer]

/-- Rust `std::time::Duration`: seconds and sub-second nanoseconds. -/
structure Duration where
  secs : Nat
  nanos : Nat
deriving DecidableEq, Repr

def Duration.toNanos (d : Duration) : Nat :=
  d.secs * 1000000000 + d.nanos

def Duration.ofNanos (n : Nat) : Duration :=
  ⟨n / 1000000000, n % 1000000000⟩

/-- `Duration * u32`: exact over total nanoseconds. -/
def Duration.mul (d : Duration) (k : Nat) : Duration :=
  Duration.ofNanos (d.toNanos * k)

/-- `Duration / u32`: truncating division over total nanoseconds. -/
def Duration.div (d : Duration) (k : Nat) : Duration :=
  Duration.ofNanos (d.toNanos / k)

/-- `Duration + Duration`. -/
def Duration.add (d e : Duration) : Duration :=
  Duration.ofNanos (d.toNanos + e.toNanos)

/-- `Rtt` from `peers.rs`: current sample, fast and slow decaying averages,
and the consecutive-failure counter. -/
structure Rtt where
  current : Duration
  decay_3 : Duration
  decay_10 : Duration
  failures : Nat
deriving DecidableEq, Repr

/-- `Rtt::new`. -/
def Rtt.new (current : Duration) : Rtt :=
  ⟨current, current, current, 0⟩

/-- `Rtt::register`: `decay_3 = decay_3 * 7 / 10 + current * 3 / 10`,
`decay_10 = decay_10 * 9 / 10 + current / 10`, failures reset. -/
def Rtt.register (r : Rtt) (current : Duration) : Rtt :=
  { current := current
    decay_3 := ((r.decay_3.mul 7).div 10).add ((current.mul 3).div 10)
    decay_10 := ((r.decay_10.mul 9).div 10).add (current.div 10)
    failures := 0 }

/-- `Rtt::register_failure`. -/
def Rtt.register_failure (r : Rtt) : Rtt :=
  { r with failures := r.failures + 1 }

/-- `AddressSource` from `peers.rs`. -/
inductive AddressSource where
  | mdns
  | kad
  | peer
  | user
deriving DecidableEq, Repr

/-- `PeerInfo` from `peers.rs`. -/
structure PeerInfo where
  protocol_version : Option String
  agent_version : Option String
  protocols : List String
  addresses : List (Multiaddr × AddressSource)
  rtt : Option Rtt
deriving DecidableEq, Repr

/-- `PeerInfo::default()` (the `Default` derive). -/
def PeerInfo.empty : PeerInfo :=
  ⟨none, none, [], [], none⟩

/-- The used fields of `libp2p::identify::IdentifyInfo` (the Rust type has
further fields that `set_info` never reads). -/
structure IdentifyInfo where
  protocol_version : String
  agent_version : String
  protocols : List String
deriving DecidableEq, Repr

/-- `Event` from `peers.rs`. `ConnectedPoint` values are represented by
their remote `Multiaddr` (the only component the code reads); the `Head` of
`NewHead` is opaque. -/
inductive Event where
  | newListener (id : Nat)
  | newListenAddr (id : Nat) (addr : Multiaddr)
  | expiredListenAddr (id : Nat) (addr : Multiaddr)
  | listenerError (id : Nat) (error : String)
  | listenerClosed (id : Nat)
  | newExternalAddr (addr : Multiaddr)
  | expiredExternalAddr (addr : Multiaddr)
  | discovered (peer : PeerId)
  | dialFailure (peer : PeerId) (addr : Multiaddr) (error : String)
  | unreachable (peer : PeerId)
  | connectionEstablished (peer : PeerId) (conn : Multiaddr)
  | connectionClosed (peer : PeerId) (conn : Multiaddr)
  | addressChanged (peer : PeerId) (old : Multiaddr) (new : Multiaddr)
  | connected (peer : PeerId)
  | disconnected (peer : PeerId)
  | subscribed (peer : PeerId) (topic : String)
  | unsubscribed (peer : PeerId) (topic : String)
  | newHead (head : Nat)
  | bootstrapped
  | newInfo (peer : PeerId)
deriving DecidableEq, Repr

/-- One sender in `event_stream` together with its receiver: `sid` names the
receiver handle, `live` is false once the receiver was dropped, `inbox` is
the unbounded channel buffer. -/
structure Subscriber where
  sid : Nat
  live : Bool
  inbox : List Event
deriving DecidableEq, Repr

/-- `DialPeerCondition` (only the value the code uses). -/
inductive DialCond where
  | disconnected
deriving DecidableEq, Repr

/-- A queued `NetworkBehaviourAction` (the code only ever queues `DialPeer`). -/
inductive NBAction where
  | dialPeer (peer : PeerId) (condition : DialCond)
deriving DecidableEq, Repr

/-- The `AddressBook` state. The prometheus globals the file mutates are
modelled as counter/gauge fields; `next_sid` allocates receiver handles. -/
structure AddressBook where
  enable_loopback : Bool
  prune_addresses : Bool
  local_node_name : String
  local_peer_id : PeerId
  local_public_key : Nat
  peers : List (PeerId × PeerInfo)
  connections : List (PeerId × Multiaddr)
  event_stream : List Subscriber
  actions : List NBAction
  next_sid : Nat
  listeners_gauge : Int
  listen_addrs_gauge : Int
  external_addrs_gauge : Int
  discovered_gauge : Int
  connected_gauge : Int
  listener_error_ctr : Nat
  addr_reach_failure_ctr : Nat
  dial_failure_ctr : Nat
deriving DecidableEq, Repr

/-- `AddressBook::new`. -/
def AddressBook.new (local_peer_id : PeerId) (local_node_name : String)
    (local_public_key : Nat) (enable_loopback : Bool) (prune_addresses : Bool) :
    AddressBook :=
  { enable_loopback := enable_loopback
    prune_addresses := prune_addresses
    local_node_name := local_node_name
    local_peer_id := local_peer_id
    local_public_key := local_public_key
    peers := []
    connections := []
    event_stream := []
    actions := []
    next_sid := 0
    listeners_gauge := 0
    listen_addrs_gauge := 0
    external_addrs_gauge := 0
    discovered_gauge := 0
    connected_gauge := 0
    listener_error_ctr := 0
    addr_reach_failure_ctr := 0
    dial_failure_ctr := 0 }

/-- `AddressBook::notify`: send the event to every subscriber, retaining
exactly those whose receiver is still alive; a successful send appends the
event to the receiver's buffer. -/
def notify (s : AddressBook) (e : Event) : AddressBook :=
  { s with
    event_stream := s.event_stream.filterMap fun sub =>
      if sub.live then some { sub with inbox := sub.inbox ++ [e] } else none }

/-- Notify one event and report it as emitted. -/
def emit (s : AddressBook) (e : Event) : AddressBook × List Event :=
  (notify s e, [e])

/-- `AddressBook::dial`: refuse to dial self, otherwise queue a `DialPeer`
action with the `Disconnected` condition. -/
def dial (s : AddressBook) (peer : PeerId) : AddressBook :=
  if peer = s.local_peer_id then s
  else { s with actions := s.actions ++ [NBAction.dialPeer peer DialCond.disconnected] }

/-- `AddressBook::add_address`. -/
def add_address (s : AddressBook) (peer : PeerId) (address : Multiaddr)
    (source : AddressSource) : AddressBook × List Event :=
  if peer = s.local_peer_id then (s, [])
  else if !s.enable_loopback && address.is_loopback then (s, [])
  else
    let discovered := !(containsKey s.peers peer)
    let info := (lookupKey s.peers peer).getD PeerInfo.empty
    let naddress := normalize_addr address peer
    let info :=
      if containsKey info.addresses naddress then info
      else { info with addresses := info.addresses ++ [(naddress, source)] }
    let s := { s with peers := setKey s.peers peer info }
    if discovered then emit s (Event.discovered peer) else (s, [])

/-- `AddressBook::remove_address`. -/
def remove_address (s : AddressBook) (peer : PeerId) (address : Multiaddr) :
    AddressBook :=
  let naddress := normalize_addr address peer
  match lookupKey s.peers peer with
  | some info =>
    { s with peers := setKey s.peers peer { info with addresses := eraseKey info.addresses naddress } }
  | none => s

/-- `AddressBook::is_connected`. -/
def is_connected (s : AddressBook) (peer : PeerId) : Bool :=
  containsKey s.connections peer || peer == s.local_peer_id

/-- `AddressBook::set_rtt`. -/
def set_rtt (s : AddressBook) (peer : PeerId) (rtt : Option Duration) :
    AddressBook × List Event :=
  match lookupKey s.peers peer with
  | some info =>
    let info :=
      match rtt, info.rtt with
      | some duration, some r => { info with rtt := some (r.register duration) }
      | some duration, none => { info with rtt := some (Rtt.new duration) }
      | none, some r => { info with rtt := some r.register_failure }
      | none, none => info
    emit { s with peers := setKey s.peers peer info } (Event.newInfo peer)
  | none => (s, [])

/-- `AddressBook::set_info`. -/
def set_info (s : AddressBook) (peer : PeerId) (identify : IdentifyInfo) :
    AddressBook :=
  match lookupKey s.peers peer with
  | some info =>
    { s with
      peers := setKey s.peers peer
        { info with
          protocol_version := some identify.protocol_version
          agent_version := some identify.agent_version
          protocols := identify.protocols } }
  | none => s

/-- `AddressBook::swarm_events`: register a fresh live subscriber with an
empty buffer and hand back its receiver id. -/
def swarm_events (s : AddressBook) : AddressBook × Nat :=
  ({ s with
      event_stream := s.event_stream ++ [⟨s.next_sid, true, []⟩]
      next_sid := s.next_sid + 1 },
   s.next_sid)

/-- Dropping a `SwarmEvents` receiver: the matching sender's sends start to
fail. -/
def drop_receiver (s : AddressBook) (sid : Nat) : AddressBook :=
  { s with
    event_stream := s.event_stream.map fun sub =>
      if sub.sid = sid then { sub with live := false } else sub }

/-- `NetworkBehaviour::addresses_of_peer`. -/
def addresses_of_peer (s : AddressBook) (peer : PeerId) : List Multiaddr :=
  match lookupKey s.peers peer with
  | some info => info.addresses.map Prod.fst
  | none => []

/-- `NetworkBehaviour::poll`: pop the next queued action. -/
def poll (s : AddressBook) : AddressBook × Option NBAction :=
  match s.actions with
  | a :: rest => ({ s with actions := rest }, some a)
  | [] => (s, none)

/-- `inject_connected`. -/
def inject_connected (s : AddressBook) (peer : PeerId) : AddressBook × List Event :=
  emit { s with connected_gauge := s.connected_gauge + 1 } (Event.connected peer)

/-- `inject_disconnected`. -/
def inject_disconnected (s : AddressBook) (peer : PeerId) : AddressBook × List Event :=
  emit { s with connected_gauge := s.connected_gauge - 1 } (Event.disconnected peer)

/-- `inject_connection_established`: normalize the remote address, add it
with source `Peer`, record the connection, notify. -/
def inject_connection_established (s : AddressBook) (peer : PeerId)
    (conn : Multiaddr) : AddressBook × List Event :=
  let address := normalize_addr conn peer
  let r1 := add_address s peer address AddressSource.peer
  let s2 := { r1.1 with connections := setKey r1.1.connections peer address }
  (notify s2 (Event.connectionEstablished peer conn),
   r1.2 ++ [Event.connectionEstablished peer conn])

/-- `inject_address_change`. -/
def inject_address_change (s : AddressBook) (peer : PeerId)
    (oldc newc : Multiaddr) : AddressBook × List Event :=
  let new_addr := normalize_addr newc peer
  let r1 := add_address s peer new_addr AddressSource.peer
  let s2 := { r1.1 with connections := setKey r1.1.connections peer new_addr }
  (notify s2 (Event.addressChanged peer oldc newc),
   r1.2 ++ [Event.addressChanged peer oldc newc])

/-- `inject_connection_closed`. -/
def inject_connection_closed (s : AddressBook) (peer : PeerId)
    (conn : Multiaddr) : AddressBook × List Event :=
  let s2 := { s with connections := eraseKey s.connections peer }
  emit s2 (Event.connectionClosed peer conn)

/-- `inject_addr_reach_failure`: always notify `DialFailure` (with the
original, un-normalized address); if the peer is still connected stop;
otherwise count the failure and, when pruning, remove the address. -/
def inject_addr_reach_failure (s : AddressBook) (peer : Option PeerId)
    (addr : Multiaddr) (error : String) : AddressBook × List Event :=
  match peer with
  | some peer =>
    let r1 := emit s (Event.dialFailure peer addr error)
    if is_connected r1.1 peer then r1
    else
      let s2 := { r1.1 with addr_reach_failure_ctr := r1.1.addr_reach_failure_ctr + 1 }
      if s2.prune_addresses then (remove_address s2 peer addr, r1.2) else (s2, r1.2)
  | none => (s, [])

/-- The common tail of `inject_dial_failure` (after the redial early return):
count the failure, and if the peer is known declare it unreachable, deleting
the record when pruning. -/
def dial_failure_fallthrough (s : AddressBook) (peer : PeerId) :
    AddressBook × List Event :=
  let s := { s with dial_failure_ctr := s.dial_failure_ctr + 1 }
  if containsKey s.peers peer then
    let s := { s with discovered_gauge := s.discovered_gauge - 1 }
    let r := emit s (Event.unreachable peer)
    if r.1.prune_addresses then ({ r.1 with peers := eraseKey r.1.peers peer }, r.2)
    else r
  else (s, [])

/-- `inject_dial_failure`: when pruning is on and the peer still has an
address, redial instead of declaring failure. -/
def inject_dial_failure (s : AddressBook) (peer : PeerId) :
    AddressBook × List Event :=
  if s.prune_addresses then
    match lookupKey s.peers peer with
    | some info =>
      if !info.addresses.isEmpty then (dial s peer, [])
      else dial_failure_fallthrough s peer
    | none => dial_failure_fallthrough s peer
  else dial_failure_fallthrough s peer

/-- `inject_new_listener`. -/
def inject_new_listener (s : AddressBook) (id : Nat) : AddressBook × List Event :=
  emit { s with listeners_gauge := s.listeners_gauge + 1 } (Event.newListener id)

/-- `inject_new_listen_addr`. -/
def inject_new_listen_addr (s : AddressBook) (id : Nat) (addr : Multiaddr) :
    AddressBook × List Event :=
  emit { s with listen_addrs_gauge := s.listen_addrs_gauge + 1 } (Event.newListenAddr id addr)

/-- `inject_expired_listen_addr`. -/
def inject_expired_listen_addr (s : AddressBook) (id : Nat) (addr : Multiaddr) :
    AddressBook × List Event :=
  emit { s with listen_addrs_gauge := s.listen_addrs_gauge - 1 } (Event.expiredListenAddr id addr)

/-- `inject_listener_error`. -/
def inject_listener_error (s : AddressBook) (id : Nat) (error : String) :
    AddressBook × List Event :=
  emit { s with listener_error_ctr := s.listener_error_ctr + 1 } (Event.listenerError id error)

/-- `inject_listener_closed`. -/
def inject_listener_closed (s : AddressBook) (id : Nat) : AddressBook × List Event :=
  emit { s with listeners_gauge := s.listeners_gauge - 1 } (Event.listenerClosed id)

/-- `inject_new_external_addr`. -/
def inject_new_external_addr (s : AddressBook) (addr : Multiaddr) :
    AddressBook × List Event :=
  emit { s with external_addrs_gauge := s.external_addrs_gauge + 1 }
    (Event.newExternalAddr (normalize_addr addr s.local_peer_id))

/-- `inject_expired_external_addr`. -/
def inject_expired_external_addr (s : AddressBook) (addr : Multiaddr) :
    AddressBook × List Event :=
  emit { s with external_addrs_gauge := s.external_addrs_gauge - 1 }
    (Event.expiredExternalAddr (normalize_addr addr s.local_peer_id))

/-- One externally invocable mutation entry point or lifecycle callback. -/
inductive Op where
  | addAddress (peer : PeerId) (address : Multiaddr) (source : AddressSource)
  | removeAddress (peer : PeerId) (address : Multiaddr)
  | dialOp (peer : PeerId)
  | setRtt (peer : PeerId) (rtt : Option Duration)
  | setInfoOp (peer : PeerId) (identify : IdentifyInfo)
  | swarmEventsOp
  | dropReceiverOp (sid : Nat)
  | notifyOp (e : Event)
  | pollOp
  | connectedCb (peer : PeerId)
  | disconnectedCb (peer : PeerId)
  | connectionEstablished (peer : PeerId) (conn : Multiaddr)
  | addressChange (peer : PeerId) (oldc newc : Multiaddr)
  | connectionClosed (peer : PeerId) (conn : Multiaddr)
  | addrReachFailure (peer : Option PeerId) (addr : Multiaddr) (error : String)
  | dialFailureCb (peer : PeerId)
  | newListenerCb (id : Nat)
  | newListenAddrCb (id : Nat) (addr : Multiaddr)
  | expiredListenAddrCb (id : Nat) (addr : Multiaddr)
  | listenerErrorCb (id : Nat) (error : String)
  | listenerClosedCb (id : Nat)
  | newExternalAddrCb (addr : Multiaddr)
  | expiredExternalAddrCb (addr : Multiaddr)
deriving DecidableEq, Repr

/-- The state transition of one entry point. -/
def applyOp (s : AddressBook) (o : Op) : AddressBook :=
  match o with
  | Op.addAddress peer address source => (add_address s peer address source).1
  | Op.removeAddress peer address => remove_address s peer address
  | Op.dialOp peer => dial s peer
  | Op.setRtt peer rtt => (set_rtt s peer rtt).1
  | Op.setInfoOp peer identify => set_info s peer identify
  | Op.swarmEventsOp => (swarm_events s).1
  | Op.dropReceiverOp sid => drop_receiver s sid
  | Op.notifyOp e => notify s e
  | Op.pollOp => (poll s).1
  | Op.connectedCb peer => (inject_connected s peer).1
  | Op.disconnectedCb peer => (inject_disconnected s peer).1
  | Op.connectionEstablished peer conn => (inject_connection_established s peer conn).1
  | Op.addressChange peer oldc newc => (inject_address_change s peer oldc newc).1
  | Op.connectionClosed peer conn => (inject_connection_closed s peer conn).1
  | Op.addrReachFailure peer addr error => (inject_addr_reach_failure s peer addr error).1
  | Op.dialFailureCb peer => (inject_dial_failure s peer).1
  | Op.newListenerCb id => (inject_new_listener s id).1
  | Op.newListenAddrCb id addr => (inject_new_listen_addr s id addr).1
  | Op.expiredListenAddrCb id addr => (inject_expired_listen_addr s id addr).1
  | Op.listenerErrorCb id error => (inject_listener_error s id error).1
  | Op.listenerClosedCb id => (inject_listener_closed s id).1
  | Op.newExternalAddrCb addr => (inject_new_external_addr s addr).1
  | Op.expiredExternalAddrCb addr => (inject_expired_external_addr s addr).1

/-- States reachable from `AddressBook::new` by any sequence of entry points. -/
inductive Reachable : AddressBook → Prop where
  | init (lid : PeerId) (name : String) (key : Nat) (el pa : Bool) :
      Reachable (AddressBook.new lid name key el pa)
  | step (s : AddressBook) (o : Op) (h : Reachable s) : Reachable (applyOp s o)

/-- `/ip4/1.1.1.1/tcp/3333` (the tcp segment is opaque). -/
def addr1 : Multiaddr := [Proto.ip4 16843009, Proto.other 0]

/-- `/ip4/127.0.0.1/tcp/3333`: an IPv4 loopback address. -/
def addrLoop : Multiaddr := [Proto.ip4 2130706433, Proto.other 0]

/-- An address without any IPv4 segment. -/
def addrNoIp4 : Multiaddr := [Proto.other 7]

/-- A book with loopback disabled and pruning enabled (local peer 0). -/
def bookD : AddressBook := AddressBook.new 0 "" 0 false true

/-- A book with loopback enabled and pruning enabled (local peer 0). -/
def bookE : AddressBook := AddressBook.new 0 "" 0 true true

/-- Peer 1 known with one (normalized) address. -/
def infoW : PeerInfo := ⟨none, none, [], [(addr1 ++ [Proto.p2p 1], AddressSource.mdns)], none⟩

/-- A book in which peer 1 has one stored address, pruning enabled. -/
def bookW : AddressBook := { bookD with peers := [(1, infoW)] }

/-- A book in which peer 1 has a record with an empty address set. -/
def bookW0 : AddressBook := { bookD with peers := [(1, PeerInfo.empty)] }

/-- A book with one live subscriber (id 0) and one dropped subscriber (id 1). -/
def bookS : AddressBook :=
  { bookE with event_stream := [⟨0, true, []⟩, ⟨1, false, []⟩], next_sid := 2 }

theorem Duration.toNanos_ofNanos (n : Nat) : (Duration.ofNanos n).toNanos = n := by
  simp only [Duration.ofNanos, Duration.toNanos]
  omega

theorem normalize_addr_idem (a : Multiaddr) (p q : PeerId) :
    normalize_addr (normalize_addr a p) q = normalize_addr a p := by
  unfold normalize_addr
  cases hg : a.getLast? with
  | none =>
    rcases a with _ | ⟨x, t⟩
    · simp
    · simp at hg
  | some pr =>
    cases pr with
    | p2p r => simp [hg]
    | ip4 ip =>
      simp only [hg]
      rw [List.getLast?_concat]
    | other tag =>
      simp only [hg]
      rw [List.getLast?_concat]

theorem is_loopback_normalize (a : Multiaddr) (p : PeerId) :
    (normalize_addr a p).is_loopback = a.is_loopback := by
  unfold normalize_addr Multiaddr.is_loopback
  rcases a with _ | ⟨x, t⟩
  · simp
  · cases hg : (x :: t).getLast? with
    | none => simp at hg
    | some pr =>
      cases pr <;> simp [hg, List.cons_append]

theorem notify_peers (s : AddressBook) (e : Event) : (notify s e).peers = s.peers := rfl

theorem notify_connections (s : AddressBook) (e : Event) :
    (notify s e).connections = s.connections := rfl

theorem add_address_local (s : AddressBook) (p : PeerId) (a : Multiaddr)
    (src : AddressSource) : (add_address s p a src).1.local_peer_id = s.local_peer_id := by
  unfold add_address emit notify
  split
  · rfl
  · split
    · rfl
    · dsimp only
      split <;> rfl

theorem add_address_connections (s : AddressBook) (p : PeerId) (a : Multiaddr)
    (src : AddressSource) : (add_address s p a src).1.connections = s.connections := by
  unfold add_address emit notify
  split
  · rfl
  · split
    · rfl
    · dsimp only
      split <;> rfl

theorem add_address_prune (s : AddressBook) (p : PeerId) (a : Multiaddr)
    (src : AddressSource) : (add_address s p a src).1.prune_addresses = s.prune_addresses := by
  unfold add_address emit notify
  split
  · rfl
  · split
    · rfl
    · dsimp only
      split <;> rfl

theorem add_address_enable_loopback (s : AddressBook) (p : PeerId) (a : Multiaddr)
    (src : AddressSource) : (add_address s p a src).1.enable_loopback = s.enable_loopback := by
  unfold add_address emit notify
  split
  · rfl
  · split
    · rfl
    · dsimp only
      split <;> rfl

theorem add_address_rejected (s : AddressBook) (p : PeerId) (a : Multiaddr)
    (src : AddressSource) (hE : s.enable_loopback = false)
    (hL : a.is_loopback = true) :
    add_address s p a src = (s, []) := by
  unfold add_address
  by_cases hp : p = s.local_peer_id
  · rw [if_pos hp]
  · rw [if_neg hp, if_pos (by simp [hE, hL])]

theorem add_address_new_peer (s : AddressBook) (p : PeerId) (a : Multiaddr)
    (src : AddressSource) (hnew : lookupKey s.peers p = none)
    (hp : p ≠ s.local_peer_id)
    (hl : s.enable_loopback = true ∨ a.is_loopback = false) :
    add_address s p a src =
      (notify { s with peers := (setKey s.peers p { PeerInfo.empty with addresses := [(normalize_addr a p, src)] }) }
        (Event.discovered p),
       [Event.discovered p]) := by
  unfold add_address
  have hcond : ¬((!s.enable_loopback && a.is_loopback) = true) := by
    rcases hl with h | h <;> simp [h]
  rw [if_neg hp, if_neg hcond]
  dsimp only
  have hck : containsKey s.peers p = false := by simp [containsKey, hnew]
  simp only [hnew, hck, Option.getD_none, Bool.not_false, if_true]
  have hck2 : containsKey PeerInfo.empty.addresses (normalize_addr a p) = true ↔ False := by
    simp [containsKey, PeerInfo.empty, lookupKey]
  rw [if_neg hck2.mp, emit]
  rfl

theorem add_address_already_known (s : AddressBook) (p : PeerId) (a : Multiaddr)
    (src : AddressSource) (info : PeerInfo) (hl : lookupKey s.peers p = some info)
    (hc : containsKey info.addresses (normalize_addr a p) = true) :
    add_address s p a src = (s, []) := by
  unfold add_address
  by_cases hp : p = s.local_peer_id
  · rw [if_pos hp]
  · rw [if_neg hp]
    by_cases hlb : (!s.enable_loopback && a.is_loopback) = true
    · rw [if_pos hlb]
    · rw [if_neg hlb]
      dsimp only
      have hck : containsKey s.peers p = true := by simp [containsKey, hl]
      simp only [hl, hck, Option.getD_some, Bool.not_true]
      rw [if_pos hc, if_neg (by simp)]
      rw [setKey_lookup_self s.peers p info hl]

theorem add_address_accepted (s : AddressBook) (p : PeerId) (a : Multiaddr)
    (src : AddressSource) (hp : p ≠ s.local_peer_id)
    (hl : s.enable_loopback = true ∨ a.is_loopback = false) :
    ∃ info, lookupKey (add_address s p a src).1.peers p = some info ∧
      containsKey info.addresses (normalize_addr a p) = true ∧
      (lookupKey ((lookupKey s.peers p).getD PeerInfo.empty).addresses
          (normalize_addr a p) = none →
        lookupKey info.addresses (normalize_addr a p) = some src) := by
  unfold add_address
  have hcond : ¬((!s.enable_loopback && a.is_loopback) = true) := by
    rcases hl with h | h <;> simp [h]
  rw [if_neg hp, if_neg hcond]
  dsimp only
  by_cases hc : containsKey ((lookupKey s.peers p).getD PeerInfo.empty).addresses
      (normalize_addr a p) = true
  · rw [if_pos hc]
    refine ⟨(lookupKey s.peers p).getD PeerInfo.empty, ?_, hc, ?_⟩
    · split
      · show lookupKey (setKey s.peers p _) p = _
        exact lookupKey_setKey_self _ _ _
      · show lookupKey (setKey s.peers p _) p = _
        exact lookupKey_setKey_self _ _ _
    · intro hnone
      rw [containsKey, hnone] at hc
      exact absurd hc (by simp)
  · rw [if_neg hc]
    have hnone : lookupKey ((lookupKey s.peers p).getD PeerInfo.empty).addresses
        (normalize_addr a p) = none := by
      cases hx : lookupKey ((lookupKey s.peers p).getD PeerInfo.empty).addresses
          (normalize_addr a p) with
      | none => rfl
      | some v => exact absurd (by simp [containsKey, hx]) hc
    have hfound : lookupKey (((lookupKey s.peers p).getD PeerInfo.empty).addresses ++
        [(normalize_addr a p, src)]) (normalize_addr a p) = some src := by
      rw [lookupKey_append_none _ _ _ hnone]
      simp [lookupKey]
    refine ⟨{ (lookupKey s.peers p).getD PeerInfo.empty with
        addresses := ((lookupKey s.peers p).getD PeerInfo.empty).addresses ++
          [(normalize_addr a p, src)] }, ?_, ?_, fun _ => hfound⟩
    · split
      · show lookupKey (setKey s.peers p _) p = _
        exact lookupKey_setKey_self _ _ _
      · show lookupKey (setKey s.peers p _) p = _
        exact lookupKey_setKey_self _ _ _
    · rw [containsKey]
      show (lookupKey (((lookupKey s.peers p).getD PeerInfo.empty).addresses ++
        [(normalize_addr a p, src)]) (normalize_addr a p)).isSome = true
      rw [hfound]
      rfl

theorem add_address_no_local (s : AddressBook) (p : PeerId) (a : Multiaddr)
    (src : AddressSource) (h : lookupKey s.peers s.local_peer_id = none) :
    lookupKey (add_address s p a src).1.peers s.local_peer_id = none := by
  unfold add_address
  by_cases hp : p = s.local_peer_id
  · rw [if_pos hp]
    exact h
  · rw [if_neg hp]
    by_cases hlb : (!s.enable_loopback && a.is_loopback) = true
    · rw [if_pos hlb]
      exact h
    · rw [if_neg hlb]
      dsimp only
      split
      · show lookupKey (setKey s.peers p _) s.local_peer_id = none
        rw [lookupKey_setKey_ne _ _ _ _ (Ne.symm hp)]
        exact h
      · show lookupKey (setKey s.peers p _) s.local_peer_id = none
        rw [lookupKey_setKey_ne _ _ _ _ (Ne.symm hp)]
        exact h

/-- C6: `Rtt::new(sample)` sets `current = decay_3 = decay_10 = sample` with
the failure counter at 0, and `Rtt::register(sample)` sets `current = sample`,
`decay_3 = decay_3*7/10 + sample*3/10` and `decay_10 = decay_10*9/10 +
sample/10` in exact fixed-ratio duration arithmetic (stated over total
nanoseconds), resetting `failures` to 0. -/
theorem c6_rtt_success_path (r : Rtt) (sample : Duration) :
    Rtt.new sample = ⟨sample, sample, sample, 0⟩ ∧
    (r.register sample).current = sample ∧
    (r.register sample).decay_3.toNanos =
      r.decay_3.toNanos * 7 / 10 + sample.toNanos * 3 / 10 ∧
    (r.register sample).decay_10.toNanos =
      r.decay_10.toNanos * 9 / 10 + sample.toNanos / 10 ∧
    (r.register sample).failures = 0 := by
  refine ⟨rfl, rfl, ?_, ?_, rfl⟩ <;>
    simp [Rtt.register, Duration.add, Duration.mul, Duration.div,
      Duration.toNanos_ofNanos]

/-- C2 counterexample: with pruning enabled, from a fresh book, adding one
address for peer 1 and then delivering a reach failure for that address
leaves a reachable state whose record for peer 1 still exists with an empty
address set — refuting the claimed non-emptiness invariant. -/
theorem c2_counterexample :
    Reachable (applyOp (applyOp (AddressBook.new 0 "" 0 false true)
        (Op.addAddress 1 addr1 AddressSource.mdns))
      (Op.addrReachFailure (some 1) addr1 "e")) ∧
    (applyOp (applyOp (AddressBook.new 0 "" 0 false true)
        (Op.addAddress 1 addr1 AddressSource.mdns))
      (Op.addrReachFailure (some 1) addr1 "e")).prune_addresses = true ∧
    lookupKey (applyOp (applyOp (AddressBook.new 0 "" 0 false true)
        (Op.addAddress 1 addr1 AddressSource.mdns))
      (Op.addrReachFailure (some 1) addr1 "e")).peers 1 = some PeerInfo.empty ∧
    PeerInfo.empty.addresses = [] :=
  ⟨Reachable.step _ _ (Reachable.step _ _ (Reachable.init 0 "" 0 false true)),
   by decide, by decide, rfl⟩

/-- C3 counterexample: with loopback disabled, an address with no IPv4
segment is rejected (nothing stored, no event), not conservatively stored as
the claim states; and with loopback enabled, a loopback address for the
local peer is still rejected, so loopback addresses are not accepted for
*every* peer. -/
theorem c3_counterexample :
    bookD.enable_loopback = false ∧
    add_address bookD 1 addrNoIp4 AddressSource.mdns = (bookD, []) ∧
    bookE.enable_loopback = true ∧
    add_address bookE 0 addrLoop AddressSource.user = (bookE, []) := by
  refine ⟨rfl, ?_, rfl, ?_⟩ <;> decide

/-- C4 counterexample: with loopback disabled, establishing a connection
whose remote address is loopback records the connection in the tracker while
the peer registry gets no record at all, so the normalized remote address is
not present in the Address Store and the registry is not complete with
respect to tracked connections. -/
theorem c4_counterexample :
    lookupKey (inject_connection_established bookD 1 addrLoop).1.peers 1 = none ∧
    lookupKey (inject_connection_established bookD 1 addrLoop).1.connections 1 =
      some (normalize_addr addrLoop 1) := by
  refine ⟨?_, ?_⟩ <;> decide

/-- C5 counterexample: with loopback disabled, the first
`add_address(P, A, _)` call for an unknown non-local peer with a loopback
address produces no event at all, not exactly one Discovered(P) event. -/
theorem c5_counterexample :
    lookupKey bookD.peers 1 = none ∧
    (1 : PeerId) ≠ bookD.local_peer_id ∧
    (add_address bookD 1 addrLoop AddressSource.mdns).2 = [] := by
  refine ⟨?_, ?_, ?_⟩ <;> decide

/-- C8 counterexample: with loopback disabled, adding a loopback address A
and then A with the identity suffix appended stores no entry at all (both
calls are rejected), so the pair of calls does not store a single
address-set entry as the claim states. -/
theorem c8_counterexample :
    lookupKey ((add_address (add_address bookD 1 addrLoop AddressSource.mdns).1 1
      (addrLoop ++ [Proto.p2p 1]) AddressSource.user).1).peers 1 = none := by
  decide

/-- C3 amended: when loopback is disabled, `add_address` is a silent no-op
for every address the code classifies as loopback — both an address whose
first segment is an IPv4 loopback address and an address with no IPv4 first
segment at all (conservatively treated as loopback, hence rejected, not
stored); when loopback is enabled, every address is accepted for every peer
other than the local identity. -/
theorem c3_amended_loopback_policy (s : AddressBook) (p : PeerId) (a : Multiaddr)
    (src : AddressSource) :
    (s.enable_loopback = false → a.is_loopback = true →
      add_address s p a src = (s, [])) ∧
    (s.enable_loopback = true → p ≠ s.local_peer_id →
      ∃ info, lookupKey (add_address s p a src).1.peers p = some info ∧
        containsKey info.addresses (normalize_addr a p) = true) := by
  constructor
  · intro hE hL
    exact add_address_rejected s p a src hE hL
  · intro hE hp
    obtain ⟨info, h1, h2, _⟩ := add_address_accepted s p a src hp (Or.inl hE)
    exact ⟨info, h1, h2⟩

/-- Witness for the C3 amended theorem at concrete inputs. -/
theorem c3_amended_witness :
    add_address bookD 1 addrNoIp4 AddressSource.mdns = (bookD, []) ∧
    ∃ info, lookupKey (add_address bookE 1 addrLoop AddressSource.user).1.peers 1 = some info ∧
      containsKey info.addresses (normalize_addr addrLoop 1) = true :=
  ⟨(c3_amended_loopback_policy bookD 1 addrNoIp4 AddressSource.mdns).1 rfl (by decide),
   (c3_amended_loopback_policy bookE 1 addrLoop AddressSource.user).2 rfl (by decide)⟩

/-- C5 amended: provided the address is administratively acceptable
(loopback enabled or the address not loopback), the first `add_address`
call for an unknown non-local peer emits exactly one `Discovered` event;
and any `add_address` call whose normalized address is already stored for
the peer is a complete no-op: no event, no state change at all (hence no
membership change and the stored `AddressSource` is never overwritten). -/
theorem c5_amended_discovery (s : AddressBook) (p : PeerId) (a : Multiaddr)
    (src src2 : AddressSource) :
    (lookupKey s.peers p = none → p ≠ s.local_peer_id →
      (s.enable_loopback = true ∨ a.is_loopback = false) →
      (add_address s p a src).2 = [Event.discovered p]) ∧
    (∀ info, lookupKey s.peers p = some info →
      containsKey info.addresses (normalize_addr a p) = true →
      add_address s p a src2 = (s, [])) := by
  constructor
  · intro hnew hp hl
    rw [add_address_new_peer s p a src hnew hp hl]
  · intro info hli hc
    exact add_address_already_known s p a src2 info hli hc

/-- Witness for the C5 amended theorem at concrete inputs. -/
theorem c5_amended_witness :
    (add_address bookE 1 addr1 AddressSource.mdns).2 = [Event.discovered 1] ∧
    add_address bookW 1 addr1 AddressSource.user = (bookW, []) :=
  ⟨(c5_amended_discovery bookE 1 addr1 AddressSource.mdns AddressSource.user).1
      (by decide) (by decide) (Or.inl rfl),
   (c5_amended_discovery bookW 1 addr1 AddressSource.mdns AddressSource.user).2
      infoW (by decide) (by decide)⟩

theorem dial_peers (s : AddressBook) (p : PeerId) : (dial s p).peers = s.peers := by
  unfold dial
  split <;> rfl

theorem is_connected_notify (s : AddressBook) (e : Event) (p : PeerId) :
    is_connected (notify s e) p = is_connected s p := rfl

theorem remove_address_ctr (s : AddressBook) (p : PeerId) (a : Multiaddr) :
    (remove_address s p a).addr_reach_failure_ctr = s.addr_reach_failure_ctr := by
  unfold remove_address
  split <;> rfl

theorem dial_failure_fallthrough_unknown (s : AddressBook) (p : PeerId)
    (hlp : lookupKey s.peers p = none) :
    dial_failure_fallthrough s p =
      ({ s with dial_failure_ctr := s.dial_failure_ctr + 1 }, []) := by
  unfold dial_failure_fallthrough
  dsimp only
  have hck : containsKey s.peers p = false := by
    rw [containsKey, hlp]
    rfl
  rw [hck]
  rfl

theorem dial_failure_fallthrough_known (s : AddressBook) (p : PeerId) (info : PeerInfo)
    (hlp : lookupKey s.peers p = some info) :
    (dial_failure_fallthrough s p).2 = [Event.unreachable p] ∧
    (dial_failure_fallthrough s p).1.peers =
      (if s.prune_addresses then eraseKey s.peers p else s.peers) := by
  unfold dial_failure_fallthrough
  dsimp only
  have hck : containsKey s.peers p = true := by
    rw [containsKey, hlp]
    rfl
  rw [hck, if_pos rfl]
  dsimp only [emit]
  cases hpp : s.prune_addresses
  · exact ⟨rfl, rfl⟩
  · exact ⟨rfl, rfl⟩

/-- C1: for `inject_dial_failure(peer)` (from any state whose registry does
not contain the local identity): if pruning is enabled and the peer has at
least one stored address, the only effect is to enqueue a dial action for
the peer (no event, record untouched); otherwise, for a known peer, exactly
one `Unreachable(peer)` event is emitted and the record is deleted if and
only if pruning is enabled; for an unknown peer no event is emitted and the
registry is unchanged. -/
theorem c1_inject_dial_failure (s : AddressBook) (p : PeerId)
    (hloc : lookupKey s.peers s.local_peer_id = none) :
    (∀ info, s.prune_addresses = true → lookupKey s.peers p = some info →
      info.addresses ≠ [] →
      inject_dial_failure s p =
        ({ s with actions := s.actions ++ [NBAction.dialPeer p DialCond.disconnected] }, [])) ∧
    (∀ info, lookupKey s.peers p = some info →
      (s.prune_addresses = false ∨ info.addresses = []) →
      (inject_dial_failure s p).2 = [Event.unreachable p] ∧
      (lookupKey (inject_dial_failure s p).1.peers p = none ↔ s.prune_addresses = true)) ∧
    (lookupKey s.peers p = none →
      (inject_dial_failure s p).2 = [] ∧ (inject_dial_failure s p).1.peers = s.peers) := by
  refine ⟨?_, ?_, ?_⟩
  · intro info hpr hlp hne
    have hpl : p ≠ s.local_peer_id := by
      intro he
      rw [he, hloc] at hlp
      exact Option.noConfusion hlp
    have hie : info.addresses.isEmpty = false := by
      cases hi : info.addresses with
      | nil => exact absurd hi hne
      | cons x t => rfl
    unfold inject_dial_failure
    rw [hpr, if_pos rfl, hlp]
    show (if (!info.addresses.isEmpty) = true then (dial s p, []) else dial_failure_fallthrough s p) = _
    rw [hie, if_pos (by rfl)]
    unfold dial
    rw [if_neg hpl, hpr]
  · intro info hlp hd
    have hfall := dial_failure_fallthrough_known s p info hlp
    rcases hd with hpr | hae
    · have hred : inject_dial_failure s p = dial_failure_fallthrough s p := by
        unfold inject_dial_failure
        rw [hpr]
        rfl
      rw [hred]
      refine ⟨hfall.1, ?_⟩
      rw [hfall.2, hpr]
      constructor
      · intro hcontra
        rw [if_neg (by simp), hlp] at hcontra
        exact Option.noConfusion hcontra
      · intro hcontra
        exact Bool.noConfusion hcontra
    · have hie : info.addresses.isEmpty = true := by
        rw [hae]
        rfl
      cases hpr : s.prune_addresses
      · have hred : inject_dial_failure s p = dial_failure_fallthrough s p := by
          unfold inject_dial_failure
          rw [hpr]
          rfl
        rw [hred]
        refine ⟨hfall.1, ?_⟩
        rw [hfall.2, hpr]
        constructor
        · intro hcontra
          rw [if_neg (by simp), hlp] at hcontra
          exact Option.noConfusion hcontra
        · intro hcontra
          exact Bool.noConfusion hcontra
      · have hred : inject_dial_failure s p = dial_failure_fallthrough s p := by
          unfold inject_dial_failure
          rw [hpr, if_pos rfl, hlp]
          show (if (!info.addresses.isEmpty) = true then (dial s p, []) else dial_failure_fallthrough s p) = _
          rw [hie]
          rfl
        rw [hred]
        refine ⟨hfall.1, ?_⟩
        rw [hfall.2, hpr, if_pos rfl]
        simp [lookupKey_eraseKey_self]
  · intro hlp
    have hred : inject_dial_failure s p = dial_failure_fallthrough s p := by
      unfold inject_dial_failure
      cases hpr : s.prune_addresses
      · rfl
      · rw [if_pos rfl, hlp]
    rw [hred, dial_failure_fallthrough_unknown s p hlp]
    exact ⟨rfl, rfl⟩

/-- Witness for C1 at a concrete state: peer 1 known with one address,
pruning enabled — the callback queues a redial and changes nothing else. -/
theorem c1_witness :
    inject_dial_failure bookW 1 =
      ({ bookW with actions := bookW.actions ++ [NBAction.dialPeer 1 DialCond.disconnected] }, []) :=
  (c1_inject_dial_failure bookW 1 (by decide)).1 infoW (by decide) (by decide) (by decide)

/-- C2 amended: under strict pruning a PeerRecord may transiently hold an
empty address set (`inject_addr_reach_failure` pruning the last address
leaves the record in place, see the counterexample); the empty record is
eliminated at the next dial-exhaustion callback: with pruning enabled,
immediately after `inject_dial_failure(peer)` the peer either has no record
or a record with a non-empty address set. -/
theorem c2_amended_dial_failure (s : AddressBook) (p : PeerId)
    (hp : s.prune_addresses = true) :
    lookupKey (inject_dial_failure s p).1.peers p = none ∨
    ∃ info, lookupKey (inject_dial_failure s p).1.peers p = some info ∧
      info.addresses ≠ [] := by
  unfold inject_dial_failure
  rw [hp, if_pos rfl]
  cases hlp : lookupKey s.peers p with
  | none =>
    left
    rw [dial_failure_fallthrough_unknown s p hlp]
    exact hlp
  | some info =>
    show (lookupKey (if (!info.addresses.isEmpty) = true then (dial s p, [])
        else dial_failure_fallthrough s p).1.peers p = none) ∨
      ∃ info2, (lookupKey (if (!info.addresses.isEmpty) = true then (dial s p, [])
        else dial_failure_fallthrough s p).1.peers p = some info2) ∧ info2.addresses ≠ []
    cases hi : info.addresses with
    | nil =>
      left
      rw [if_neg (by simp)]
      have h2 := (dial_failure_fallthrough_known s p info hlp).2
      rw [h2, hp, if_pos rfl]
      exact lookupKey_eraseKey_self _ _
    | cons x t =>
      right
      rw [if_pos (by rfl)]
      refine ⟨info, ?_, ?_⟩
      · show lookupKey (dial s p).peers p = some info
        rw [dial_peers]
        exact hlp
      · rw [hi]
        exact fun hc => List.noConfusion hc

/-- Witness for the C2 amended theorem: for the empty-address record of
`bookW0` the callback removes the record outright. -/
theorem c2_amended_witness :
    lookupKey (inject_dial_failure bookW0 1).1.peers 1 = none ∨
    ∃ info, lookupKey (inject_dial_failure bookW0 1).1.peers 1 = some info ∧
      info.addresses ≠ [] :=
  c2_amended_dial_failure bookW0 1 rfl

theorem notify_prune (s : AddressBook) (e : Event) :
    (notify s e).prune_addresses = s.prune_addresses := rfl

theorem remove_address_known (s : AddressBook) (p : PeerId) (a : Multiaddr)
    (info : PeerInfo) (h : lookupKey s.peers p = some info) :
    (remove_address s p a).peers =
      setKey s.peers p ({ info with addresses := eraseKey info.addresses (normalize_addr a p) }) := by
  unfold remove_address
  rw [h]

theorem remove_address_lookup (s : AddressBook) (p : PeerId) (a : Multiaddr)
    (info : PeerInfo) (h : lookupKey s.peers p = some info) :
    lookupKey (remove_address s p a).peers p =
      some ({ info with addresses := eraseKey info.addresses (normalize_addr a p) }) := by
  rw [remove_address_known s p a info h]
  exact lookupKey_setKey_self _ _ _

/-- C7: `inject_addr_reach_failure(Some(peer), addr, err)` for a known peer
always emits exactly one `DialFailure(peer, addr, err)` event; if the peer
is still connected nothing else happens (no counter increment, no address
removed, registry and tracker untouched, even with pruning enabled);
otherwise the address-reach-failure counter is incremented and, only when
pruning is enabled, exactly the normalized address is removed from the
peer's address store (with pruning disabled the registry is unchanged). -/
theorem c7_inject_addr_reach_failure (s : AddressBook) (p : PeerId) (a : Multiaddr)
    (err : String) (hknown : containsKey s.peers p = true) :
    (inject_addr_reach_failure s (some p) a err).2 = [Event.dialFailure p a err] ∧
    (is_connected s p = true →
      (inject_addr_reach_failure s (some p) a err).1.peers = s.peers ∧
      (inject_addr_reach_failure s (some p) a err).1.addr_reach_failure_ctr =
        s.addr_reach_failure_ctr ∧
      (inject_addr_reach_failure s (some p) a err).1.connections = s.connections) ∧
    (is_connected s p = false →
      (inject_addr_reach_failure s (some p) a err).1.addr_reach_failure_ctr =
        s.addr_reach_failure_ctr + 1 ∧
      (s.prune_addresses = true →
        ∀ info, lookupKey s.peers p = some info →
          lookupKey (inject_addr_reach_failure s (some p) a err).1.peers p =
            some ({ info with addresses := eraseKey info.addresses (normalize_addr a p) })) ∧
      (s.prune_addresses = false →
        (inject_addr_reach_failure s (some p) a err).1.peers = s.peers)) := by
  unfold inject_addr_reach_failure
  dsimp only [emit]
  rw [is_connected_notify]
  cases hcc : is_connected s p
  · rw [if_neg (by simp), notify_prune]
    cases hpp : s.prune_addresses
    · rw [if_neg (by simp)]
      refine ⟨rfl, fun hcontra => Bool.noConfusion hcontra, fun _ => ⟨rfl, ?_, fun _ => rfl⟩⟩
      intro hcontra
      exact Bool.noConfusion hcontra
    · rw [if_pos (by rfl)]
      refine ⟨rfl, fun hcontra => Bool.noConfusion hcontra, fun _ => ⟨?_, ?_, ?_⟩⟩
      · dsimp only
        rw [remove_address_ctr]
        rfl
      · intro _ info hinfo
        dsimp only
        exact remove_address_lookup _ p a info hinfo
      · intro hcontra
        exact Bool.noConfusion hcontra
  · rw [if_pos (by rfl)]
    exact ⟨rfl, fun _ => ⟨rfl, rfl, rfl⟩, fun hcontra => Bool.noConfusion hcontra⟩

/-- Witness for C7 at a concrete state: peer 1 known, not connected, pruning
enabled — the single failing address is pruned and the counter stepped. -/
theorem c7_witness :
    (inject_addr_reach_failure bookW (some 1) addr1 "e").2 =
      [Event.dialFailure 1 addr1 "e"] ∧
    (inject_addr_reach_failure bookW (some 1) addr1 "e").1.addr_reach_failure_ctr =
      bookW.addr_reach_failure_ctr + 1 ∧
    lookupKey (inject_addr_reach_failure bookW (some 1) addr1 "e").1.peers 1 =
      some ({ infoW with addresses := eraseKey infoW.addresses (normalize_addr addr1 1) }) :=
  ⟨(c7_inject_addr_reach_failure bookW 1 addr1 "e" (by decide)).1,
   (((c7_inject_addr_reach_failure bookW 1 addr1 "e" (by decide)).2.2 (by decide)).1),
   ((((c7_inject_addr_reach_failure bookW 1 addr1 "e" (by decide)).2.2 (by decide)).2.1 rfl)
      infoW (by decide))⟩

/-- C4 amended: after `inject_connection_established(peer, conn)` for a peer
other than the local identity whose remote address is administratively
acceptable (loopback enabled or the address not loopback), the normalized
remote address is present in the peer's address store (stored with source
`Peer` when it was new) and the connection tracker maps the peer to the
normalized address; the definition adds the address via `add_address`
before recording the connection. For a rejected address (loopback with
loopback disabled) the tracker entry is still recorded while the registry
is not updated, so completeness fails (see the counterexample). -/
theorem c4_amended_connection_established (s : AddressBook) (p : PeerId)
    (conn : Multiaddr) (hp : p ≠ s.local_peer_id)
    (hl : s.enable_loopback = true ∨ conn.is_loopback = false) :
    ∃ info, lookupKey (inject_connection_established s p conn).1.peers p = some info ∧
      containsKey info.addresses (normalize_addr conn p) = true ∧
      (lookupKey ((lookupKey s.peers p).getD PeerInfo.empty).addresses
          (normalize_addr conn p) = none →
        lookupKey info.addresses (normalize_addr conn p) = some AddressSource.peer) ∧
      lookupKey (inject_connection_established s p conn).1.connections p =
        some (normalize_addr conn p) := by
  have hl2 : s.enable_loopback = true ∨ (normalize_addr conn p).is_loopback = false := by
    rcases hl with h | h
    · exact Or.inl h
    · refine Or.inr ?_
      rw [is_loopback_normalize]
      exact h
  obtain ⟨info, h1, h2, h3⟩ :=
    add_address_accepted s p (normalize_addr conn p) AddressSource.peer hp hl2
  rw [normalize_addr_idem] at h2 h3
  refine ⟨info, ?_, h2, h3, ?_⟩
  · exact h1
  · show lookupKey (setKey (add_address s p (normalize_addr conn p)
        AddressSource.peer).1.connections p (normalize_addr conn p)) p =
      some (normalize_addr conn p)
    exact lookupKey_setKey_self _ _ _

/-- Witness for the C4 amended theorem at concrete inputs. -/
theorem c4_amended_witness :
    ∃ info, lookupKey (inject_connection_established bookD 1 addr1).1.peers 1 = some info ∧
      containsKey info.addresses (normalize_addr addr1 1) = true ∧
      (lookupKey ((lookupKey bookD.peers 1).getD PeerInfo.empty).addresses
          (normalize_addr addr1 1) = none →
        lookupKey info.addresses (normalize_addr addr1 1) = some AddressSource.peer) ∧
      lookupKey (inject_connection_established bookD 1 addr1).1.connections 1 =
        some (normalize_addr addr1 1) :=
  c4_amended_connection_established bookD 1 addr1 (by decide) (Or.inr (by decide))

/-- C9: `notify(event)` delivers a copy of the event to every live
subscriber (the event is appended to that subscriber's buffer); every
subscriber whose receiver has been dropped is removed from the subscriber
list during that same `notify` call (under distinct receiver ids, no
subscriber with its id remains), the call is a total function (it cannot
fail on a dead subscriber), and a receiver id absent from the subscriber
list stays absent under any later `notify`, so the dropped subscriber
receives no event from any later call. -/
theorem c9_notify_delivery (s : AddressBook) (e : Event) :
    (∀ sub, sub ∈ s.event_stream → sub.live = true →
      (⟨sub.sid, true, sub.inbox ++ [e]⟩ : Subscriber) ∈ (notify s e).event_stream) ∧
    (∀ sub, sub ∈ s.event_stream → sub.live = false →
      (s.event_stream.map Subscriber.sid).Nodup →
      ∀ sub2, sub2 ∈ (notify s e).event_stream → sub2.sid ≠ sub.sid) ∧
    (∀ sid, sid ∉ s.event_stream.map Subscriber.sid →
      sid ∉ (notify s e).event_stream.map Subscriber.sid) := by
  refine ⟨?_, ?_, ?_⟩
  · intro sub hmem hlive
    unfold notify
    dsimp only
    refine List.mem_filterMap.mpr ⟨sub, hmem, ?_⟩
    rw [hlive, if_pos rfl]
  · intro sub hmem hdead hnodup sub2 hmem2
    unfold notify at hmem2
    dsimp only at hmem2
    obtain ⟨x, hx, hfx⟩ := List.mem_filterMap.mp hmem2
    by_cases hxl : x.live = true
    · rw [hxl, if_pos rfl] at hfx
      have hsid : sub2.sid = x.sid := by
        rw [← Option.some_inj] at hfx
        cases hfx
        rfl
      intro hcontra
      have hxx : x = sub := List.inj_on_of_nodup_map hnodup hx hmem
        (by rw [← hsid, hcontra])
      rw [hxx, hdead] at hxl
      exact Bool.noConfusion hxl
    · rw [if_neg hxl] at hfx
      exact Option.noConfusion hfx
  · intro sid hnot hmem2
    obtain ⟨sub2, hsub2, hsid⟩ := List.mem_map.mp hmem2
    unfold notify at hsub2
    dsimp only at hsub2
    obtain ⟨x, hx, hfx⟩ := List.mem_filterMap.mp hsub2
    by_cases hxl : x.live = true
    · rw [hxl, if_pos rfl] at hfx
      have hsid2 : sub2.sid = x.sid := by
        rw [← Option.some_inj] at hfx
        cases hfx
        rfl
      exact hnot (List.mem_map.mpr ⟨x, hx, by rw [← hsid2, hsid]⟩)
    · rw [if_neg hxl] at hfx
      exact Option.noConfusion hfx

/-- Witness for C9 at a concrete state with one live subscriber (id 0) and
one dropped subscriber (id 1). -/
theorem c9_witness :
    (⟨0, true, [Event.bootstrapped]⟩ : Subscriber) ∈
      (notify bookS Event.bootstrapped).event_stream ∧
    (0 : Nat) ≠ 1 ∧
    (5 : Nat) ∉ (notify bookS Event.bootstrapped).event_stream.map Subscriber.sid :=
  ⟨(c9_notify_delivery bookS Event.bootstrapped).1 ⟨0, true, []⟩ (by decide) rfl,
   (c9_notify_delivery bookS Event.bootstrapped).2.1 ⟨1, false, []⟩ (by decide) rfl
     (by decide) ⟨0, true, [Event.bootstrapped]⟩
     ((c9_notify_delivery bookS Event.bootstrapped).1 ⟨0, true, []⟩ (by decide) rfl),
   (c9_notify_delivery bookS Event.bootstrapped).2.2 5 (by decide)⟩

theorem remove_address_local (s : AddressBook) (p : PeerId) (a : Multiaddr) :
    (remove_address s p a).local_peer_id = s.local_peer_id := by
  unfold remove_address
  split <;> rfl

theorem set_rtt_local (s : AddressBook) (p : PeerId) (rtt : Option Duration) :
    (set_rtt s p rtt).1.local_peer_id = s.local_peer_id := by
  unfold set_rtt emit notify
  repeat' split
  all_goals rfl

theorem set_info_local (s : AddressBook) (p : PeerId) (identify : IdentifyInfo) :
    (set_info s p identify).local_peer_id = s.local_peer_id := by
  unfold set_info
  split <;> rfl

theorem poll_peers (s : AddressBook) : (poll s).1.peers = s.peers := by
  unfold poll
  split <;> rfl

theorem poll_local (s : AddressBook) : (poll s).1.local_peer_id = s.local_peer_id := by
  unfold poll
  split <;> rfl

theorem dial_local (s : AddressBook) (p : PeerId) :
    (dial s p).local_peer_id = s.local_peer_id := by
  unfold dial
  split <;> rfl

theorem inject_addr_reach_failure_local (s : AddressBook) (po : Option PeerId)
    (a : Multiaddr) (err : String) :
    (inject_addr_reach_failure s po a err).1.local_peer_id = s.local_peer_id := by
  unfold inject_addr_reach_failure
  cases po with
  | none => rfl
  | some p =>
    dsimp only [emit]
    split
    · rfl
    · split
      · dsimp only
        unfold remove_address
        split <;> rfl
      · rfl

theorem dial_failure_fallthrough_local (s : AddressBook) (p : PeerId) :
    (dial_failure_fallthrough s p).1.local_peer_id = s.local_peer_id := by
  unfold dial_failure_fallthrough emit notify
  dsimp only
  split
  · split <;> rfl
  · rfl

theorem inject_dial_failure_local (s : AddressBook) (p : PeerId) :
    (inject_dial_failure s p).1.local_peer_id = s.local_peer_id := by
  unfold inject_dial_failure
  split
  · split
    · split
      · dsimp only
        exact dial_local s p
      · exact dial_failure_fallthrough_local s p
    · exact dial_failure_fallthrough_local s p
  · exact dial_failure_fallthrough_local s p

theorem applyOp_local (s : AddressBook) (o : Op) :
    (applyOp s o).local_peer_id = s.local_peer_id := by
  cases o with
  | addAddress p a src => exact add_address_local s p a src
  | removeAddress p a => exact remove_address_local s p a
  | dialOp p => exact dial_local s p
  | setRtt p rtt => exact set_rtt_local s p rtt
  | setInfoOp p identify => exact set_info_local s p identify
  | swarmEventsOp => rfl
  | dropReceiverOp sid => rfl
  | notifyOp e => rfl
  | pollOp => exact poll_local s
  | connectedCb p => rfl
  | disconnectedCb p => rfl
  | connectionEstablished p conn =>
    exact add_address_local s p (normalize_addr conn p) AddressSource.peer
  | addressChange p oldc newc =>
    exact add_address_local s p (normalize_addr newc p) AddressSource.peer
  | connectionClosed p conn => rfl
  | addrReachFailure po a err => exact inject_addr_reach_failure_local s po a err
  | dialFailureCb p => exact inject_dial_failure_local s p
  | newListenerCb id => rfl
  | newListenAddrCb id a => rfl
  | expiredListenAddrCb id a => rfl
  | listenerErrorCb id err => rfl
  | listenerClosedCb id => rfl
  | newExternalAddrCb a => rfl
  | expiredExternalAddrCb a => rfl

theorem lookupKey_eraseKey_none {α β : Type} [DecidableEq α]
    (m : List (α × β)) (k k2 : α) (h : lookupKey m k2 = none) :
    lookupKey (eraseKey m k) k2 = none := by
  by_cases he : k2 = k
  · rw [he]
    exact lookupKey_eraseKey_self _ _
  · rw [lookupKey_eraseKey_ne _ _ _ he]
    exact h

theorem remove_address_no_local (s : AddressBook) (p : PeerId) (a : Multiaddr)
    (h : lookupKey s.peers s.local_peer_id = none) :
    lookupKey (remove_address s p a).peers s.local_peer_id = none := by
  unfold remove_address
  cases hlp : lookupKey s.peers p with
  | none => exact h
  | some info =>
    have hne : s.local_peer_id ≠ p := by
      intro he
      rw [← he, h] at hlp
      exact Option.noConfusion hlp
    show lookupKey (setKey s.peers p _) s.local_peer_id = none
    rw [lookupKey_setKey_ne _ _ _ _ hne]
    exact h

theorem set_rtt_no_local (s : AddressBook) (p : PeerId) (rtt : Option Duration)
    (h : lookupKey s.peers s.local_peer_id = none) :
    lookupKey (set_rtt s p rtt).1.peers s.local_peer_id = none := by
  unfold set_rtt
  cases hlp : lookupKey s.peers p with
  | none => exact h
  | some info =>
    have hne : s.local_peer_id ≠ p := by
      intro he
      rw [← he, h] at hlp
      exact Option.noConfusion hlp
    show lookupKey (setKey s.peers p _) s.local_peer_id = none
    rw [lookupKey_setKey_ne _ _ _ _ hne]
    exact h

theorem set_info_no_local (s : AddressBook) (p : PeerId) (identify : IdentifyInfo)
    (h : lookupKey s.peers s.local_peer_id = none) :
    lookupKey (set_info s p identify).peers s.local_peer_id = none := by
  unfold set_info
  cases hlp : lookupKey s.peers p with
  | none => exact h
  | some info =>
    have hne : s.local_peer_id ≠ p := by
      intro he
      rw [← he, h] at hlp
      exact Option.noConfusion hlp
    show lookupKey (setKey s.peers p _) s.local_peer_id = none
    rw [lookupKey_setKey_ne _ _ _ _ hne]
    exact h

theorem inject_addr_reach_failure_no_local (s : AddressBook) (po : Option PeerId)
    (a : Multiaddr) (err : String)
    (h : lookupKey s.peers s.local_peer_id = none) :
    lookupKey (inject_addr_reach_failure s po a err).1.peers s.local_peer_id = none := by
  unfold inject_addr_reach_failure
  cases po with
  | none => exact h
  | some p =>
    dsimp only [emit]
    split
    · exact h
    · split
      · dsimp only
        exact remove_address_no_local _ p a h
      · exact h

theorem dial_failure_fallthrough_no_local (s : AddressBook) (p : PeerId)
    (h : lookupKey s.peers s.local_peer_id = none) :
    lookupKey (dial_failure_fallthrough s p).1.peers s.local_peer_id = none := by
  unfold dial_failure_fallthrough
  dsimp only [emit]
  split
  · split
    · show lookupKey (eraseKey _ p) s.local_peer_id = none
      exact lookupKey_eraseKey_none _ _ _ h
    · exact h
  · exact h

theorem inject_dial_failure_no_local (s : AddressBook) (p : PeerId)
    (h : lookupKey s.peers s.local_peer_id = none) :
    lookupKey (inject_dial_failure s p).1.peers s.local_peer_id = none := by
  unfold inject_dial_failure
  split
  · split
    · split
      · dsimp only
        rw [dial_peers]
        exact h
      · exact dial_failure_fallthrough_no_local s p h
    · exact dial_failure_fallthrough_no_local s p h
  · exact dial_failure_fallthrough_no_local s p h

theorem applyOp_no_local (s : AddressBook) (o : Op)
    (h : lookupKey s.peers s.local_peer_id = none) :
    lookupKey (applyOp s o).peers (applyOp s o).local_peer_id = none := by
  rw [applyOp_local]
  cases o with
  | addAddress p a src => exact add_address_no_local s p a src h
  | removeAddress p a => exact remove_address_no_local s p a h
  | dialOp p =>
    show lookupKey (dial s p).peers s.local_peer_id = none
    rw [dial_peers]
    exact h
  | setRtt p rtt => exact set_rtt_no_local s p rtt h
  | setInfoOp p identify => exact set_info_no_local s p identify h
  | swarmEventsOp => exact h
  | dropReceiverOp sid => exact h
  | notifyOp e => exact h
  | pollOp =>
    show lookupKey (poll s).1.peers s.local_peer_id = none
    rw [poll_peers]
    exact h
  | connectedCb p => exact h
  | disconnectedCb p => exact h
  | connectionEstablished p conn =>
    exact add_address_no_local s p (normalize_addr conn p) AddressSource.peer h
  | addressChange p oldc newc =>
    exact add_address_no_local s p (normalize_addr newc p) AddressSource.peer h
  | connectionClosed p conn => exact h
  | addrReachFailure po a err => exact inject_addr_reach_failure_no_local s po a err h
  | dialFailureCb p => exact inject_dial_failure_no_local s p h
  | newListenerCb id => exact h
  | newListenAddrCb id a => exact h
  | expiredListenAddrCb id a => exact h
  | listenerErrorCb id err => exact h
  | listenerClosedCb id => exact h
  | newExternalAddrCb a => exact h
  | expiredExternalAddrCb a => exact h

/-- C10: in every state reachable from `AddressBook::new` by any sequence of
mutation entry points and lifecycle callbacks, the peer registry contains no
entry for the local peer identity: `info(local_peer_id)` is `none` and the
peer list never yields the local identity. -/
theorem c10_registry_excludes_local (s : AddressBook) (h : Reachable s) :
    lookupKey s.peers s.local_peer_id = none ∧
    s.peers.all (fun q => !(decide (q.1 = s.local_peer_id))) = true := by
  have hmain : lookupKey s.peers s.local_peer_id = none := by
    induction h with
    | init lid name key el pa => rfl
    | step s2 o h2 ih => exact applyOp_no_local s2 o ih
  exact ⟨hmain, allKeys_ne_of_lookup_none _ _ hmain⟩

/-- A small reachable state used to witness C10. -/
def reach1 : AddressBook :=
  applyOp (AddressBook.new 0 "" 0 true true) (Op.addAddress 1 addr1 AddressSource.mdns)

/-- Witness for C10 at a concrete reachable state. -/
theorem c10_witness :
    lookupKey reach1.peers reach1.local_peer_id = none ∧
    reach1.peers.all (fun q => !(decide (q.1 = reach1.local_peer_id))) = true :=
  c10_registry_excludes_local reach1
    (Reachable.step _ _ (Reachable.init 0 "" 0 true true))

/-- Number of entries stored under key `k` (1 for a map without duplicate
keys when the key is present, 0 otherwise). -/
def countKey {α β : Type} [DecidableEq α] : List (α × β) → α → Nat
  | [], _ => 0
  | (a, _) :: t, k => (if a = k then 1 else 0) + countKey t k

theorem not_mem_keys_of_lookup_none {α β : Type} [DecidableEq α]
    (m : List (α × β)) (k : α) (h : lookupKey m k = none) :
    k ∉ m.map Prod.fst := by
  induction m with
  | nil => simp
  | cons hd t ih =>
    obtain ⟨a, b⟩ := hd
    simp only [lookupKey] at h
    by_cases ha : a = k
    · rw [if_pos ha] at h
      exact absurd h (by simp)
    · rw [if_neg ha] at h
      simp only [List.map_cons, List.mem_cons]
      push_neg
      exact ⟨fun hc => ha hc.symm, ih h⟩

theorem countKey_eq_zero_of_not_mem {α β : Type} [DecidableEq α]
    (m : List (α × β)) (k : α) (h : k ∉ m.map Prod.fst) :
    countKey m k = 0 := by
  induction m with
  | nil => rfl
  | cons hd t ih =>
    obtain ⟨a, b⟩ := hd
    simp only [List.map_cons, List.mem_cons] at h
    push_neg at h
    simp only [countKey]
    rw [if_neg (fun hc => h.1 hc.symm), ih h.2]

theorem countKey_eq_zero_of_lookup_none {α β : Type} [DecidableEq α]
    (m : List (α × β)) (k : α) (h : lookupKey m k = none) :
    countKey m k = 0 :=
  countKey_eq_zero_of_not_mem m k (not_mem_keys_of_lookup_none m k h)

theorem countKey_append {α β : Type} [DecidableEq α]
    (m n : List (α × β)) (k : α) :
    countKey (m ++ n) k = countKey m k + countKey n k := by
  induction m with
  | nil => simp [countKey]
  | cons hd t ih =>
    obtain ⟨a, b⟩ := hd
    rw [List.cons_append]
    simp only [countKey]
    rw [ih]
    omega

theorem countKey_eq_one_of_nodup {α β : Type} [DecidableEq α]
    (m : List (α × β)) (k : α) (hnd : (m.map Prod.fst).Nodup)
    (hc : containsKey m k = true) : countKey m k = 1 := by
  induction m with
  | nil => simp [containsKey, lookupKey] at hc
  | cons hd t ih =>
    obtain ⟨a, b⟩ := hd
    simp only [List.map_cons, List.nodup_cons] at hnd
    simp only [countKey]
    by_cases ha : a = k
    · rw [if_pos ha]
      have ht : countKey t k = 0 := countKey_eq_zero_of_not_mem t k (ha ▸ hnd.1)
      omega
    · rw [if_neg ha]
      have hc2 : containsKey t k = true := by
        simp only [containsKey, lookupKey] at hc
        rw [if_neg ha] at hc
        exact hc
      rw [ih hnd.2 hc2]

theorem nodup_append_singleton {γ : Type} (l : List γ) (x : γ)
    (hnd : l.Nodup) (hx : x ∉ l) : (l ++ [x]).Nodup := by
  induction l with
  | nil => simp
  | cons y t ih =>
    rw [List.nodup_cons] at hnd
    rw [List.cons_append, List.nodup_cons]
    refine ⟨?_, ih hnd.2 (fun hxt => hx (List.mem_cons_of_mem y hxt))⟩
    intro hmem
    rcases List.mem_append.mp hmem with hm | hm
    · exact hnd.1 hm
    · rw [List.mem_singleton] at hm
      refine hx ?_
      rw [← hm]
      exact List.mem_cons_self y t

theorem mem_keys_eraseKey {α β : Type} [DecidableEq α]
    (m : List (α × β)) (k q : α)
    (h : q ∈ (eraseKey m k).map Prod.fst) : q ∈ m.map Prod.fst := by
  induction m with
  | nil =>
    simp [eraseKey] at h
  | cons hd t ih =>
    obtain ⟨x, v⟩ := hd
    simp only [eraseKey] at h
    by_cases hx : x = k
    · rw [if_pos hx] at h
      exact List.mem_cons_of_mem _ (ih h)
    · rw [if_neg hx] at h
      simp only [List.map_cons, List.mem_cons] at h ⊢
      rcases h with h1 | h1
      · exact Or.inl h1
      · exact Or.inr (ih h1)

theorem nodup_keys_eraseKey {α β : Type} [DecidableEq α]
    (m : List (α × β)) (k : α)
    (h : (m.map Prod.fst).Nodup) : ((eraseKey m k).map Prod.fst).Nodup := by
  induction m with
  | nil => simp [eraseKey]
  | cons hd t ih =>
    obtain ⟨x, v⟩ := hd
    simp only [List.map_cons, List.nodup_cons] at h
    simp only [eraseKey]
    by_cases hx : x = k
    · rw [if_pos hx]
      exact ih h.2
    · rw [if_neg hx]
      simp only [List.map_cons, List.nodup_cons]
      exact ⟨fun hmem => h.1 (mem_keys_eraseKey t k x hmem), ih h.2⟩

/-- Every record in the registry has an address list without duplicate keys
(the `FnvHashMap` shape; the operations insert an address only when it is
absent). -/
def PeersAddrNodup (s : AddressBook) : Prop :=
  ∀ q info, lookupKey s.peers q = some info → (info.addresses.map Prod.fst).Nodup

theorem peers_nodup_setKey (m : List (PeerId × PeerInfo)) (p : PeerId) (v : PeerInfo)
    (h : ∀ q info, lookupKey m q = some info → (info.addresses.map Prod.fst).Nodup)
    (hv : (v.addresses.map Prod.fst).Nodup) :
    ∀ q info, lookupKey (setKey m p v) q = some info →
      (info.addresses.map Prod.fst).Nodup := by
  intro q info hq
  by_cases hqp : q = p
  · rw [hqp, lookupKey_setKey_self] at hq
    injection hq with hq2
    rw [← hq2]
    exact hv
  · rw [lookupKey_setKey_ne _ _ _ _ hqp] at hq
    exact h q info hq

theorem peers_nodup_eraseKey (m : List (PeerId × PeerInfo)) (p : PeerId)
    (h : ∀ q info, lookupKey m q = some info → (info.addresses.map Prod.fst).Nodup) :
    ∀ q info, lookupKey (eraseKey m p) q = some info →
      (info.addresses.map Prod.fst).Nodup := by
  intro q info hq
  by_cases hqp : q = p
  · rw [hqp, lookupKey_eraseKey_self] at hq
    exact Option.noConfusion hq
  · rw [lookupKey_eraseKey_ne _ _ _ hqp] at hq
    exact h q info hq

theorem add_address_addr_nodup (s : AddressBook) (p : PeerId) (a : Multiaddr)
    (src : AddressSource) (h : PeersAddrNodup s) :
    PeersAddrNodup (add_address s p a src).1 := by
  unfold add_address
  by_cases hp : p = s.local_peer_id
  · rw [if_pos hp]
    exact h
  · rw [if_neg hp]
    by_cases hlb : (!s.enable_loopback && a.is_loopback) = true
    · rw [if_pos hlb]
      exact h
    · rw [if_neg hlb]
      dsimp only
      have h0 : (((lookupKey s.peers p).getD PeerInfo.empty).addresses.map Prod.fst).Nodup := by
        cases hlk : lookupKey s.peers p with
        | none => simp [PeerInfo.empty]
        | some i => exact h p i hlk
      have hbase : ∀ info0 : PeerInfo, (info0.addresses.map Prod.fst).Nodup →
          (((if containsKey info0.addresses (normalize_addr a p) = true then info0
            else { info0 with addresses := info0.addresses ++ [(normalize_addr a p, src)] }) :
              PeerInfo).addresses.map Prod.fst).Nodup := by
        intro info0 hi0
        by_cases hc : containsKey info0.addresses (normalize_addr a p) = true
        · rw [if_pos hc]
          exact hi0
        · rw [if_neg hc]
          show ((info0.addresses ++ [(normalize_addr a p, src)]).map Prod.fst).Nodup
          rw [List.map_append]
          refine nodup_append_singleton _ _ hi0 ?_
          refine not_mem_keys_of_lookup_none _ _ ?_
          cases hx : lookupKey info0.addresses (normalize_addr a p) with
          | none => rfl
          | some v => exact absurd (by simp [containsKey, hx]) hc
      split
      · intro q info hq
        exact peers_nodup_setKey s.peers p _ h (hbase _ h0) q info hq
      · intro q info hq
        exact peers_nodup_setKey s.peers p _ h (hbase _ h0) q info hq

theorem remove_address_addr_nodup (s : AddressBook) (p : PeerId) (a : Multiaddr)
    (h : PeersAddrNodup s) : PeersAddrNodup (remove_address s p a) := by
  unfold remove_address
  cases hlk : lookupKey s.peers p with
  | none => exact h
  | some info =>
    intro q info2 hq
    refine peers_nodup_setKey s.peers p _ h ?_ q info2 hq
    show ((eraseKey info.addresses (normalize_addr a p)).map Prod.fst).Nodup
    exact nodup_keys_eraseKey _ _ (h p info hlk)

theorem set_rtt_addr_nodup (s : AddressBook) (p : PeerId) (rtt : Option Duration)
    (h : PeersAddrNodup s) : PeersAddrNodup (set_rtt s p rtt).1 := by
  unfold set_rtt
  cases hlk : lookupKey s.peers p with
  | none => exact h
  | some info =>
    intro q info2 hq
    refine peers_nodup_setKey s.peers p _ h ?_ q info2 hq
    have hi := h p info hlk
    cases rtt with
    | none =>
      cases hr : info.rtt with
      | none => exact hi
      | some r => exact hi
    | some d =>
      cases hr : info.rtt with
      | none => exact hi
      | some r => exact hi

theorem set_info_addr_nodup (s : AddressBook) (p : PeerId) (identify : IdentifyInfo)
    (h : PeersAddrNodup s) : PeersAddrNodup (set_info s p identify) := by
  unfold set_info
  cases hlk : lookupKey s.peers p with
  | none => exact h
  | some info =>
    intro q info2 hq
    refine peers_nodup_setKey s.peers p _ h ?_ q info2 hq
    exact h p info hlk

theorem dial_addr_nodup (s : AddressBook) (p : PeerId) (h : PeersAddrNodup s) :
    PeersAddrNodup (dial s p) := by
  unfold dial
  split
  · exact h
  · exact h

theorem poll_addr_nodup (s : AddressBook) (h : PeersAddrNodup s) :
    PeersAddrNodup (poll s).1 := by
  unfold poll
  split
  · exact h
  · exact h

theorem inject_addr_reach_failure_addr_nodup (s : AddressBook) (po : Option PeerId)
    (a : Multiaddr) (err : String) (h : PeersAddrNodup s) :
    PeersAddrNodup (inject_addr_reach_failure s po a err).1 := by
  unfold inject_addr_reach_failure
  cases po with
  | none => exact h
  | some p =>
    dsimp only [emit]
    split
    · exact h
    · split
      · dsimp only
        exact remove_address_addr_nodup _ p a h
      · exact h

theorem dial_failure_fallthrough_addr_nodup (s : AddressBook) (p : PeerId)
    (h : PeersAddrNodup s) : PeersAddrNodup (dial_failure_fallthrough s p).1 := by
  unfold dial_failure_fallthrough
  dsimp only [emit]
  split
  · split
    · intro q info hq
      exact peers_nodup_eraseKey _ p h q info hq
    · exact h
  · exact h

theorem inject_dial_failure_addr_nodup (s : AddressBook) (p : PeerId)
    (h : PeersAddrNodup s) : PeersAddrNodup (inject_dial_failure s p).1 := by
  unfold inject_dial_failure
  split
  · split
    · split
      · exact dial_addr_nodup s p h
      · exact dial_failure_fallthrough_addr_nodup s p h
    · exact dial_failure_fallthrough_addr_nodup s p h
  · exact dial_failure_fallthrough_addr_nodup s p h

theorem applyOp_addr_nodup (s : AddressBook) (o : Op) (h : PeersAddrNodup s) :
    PeersAddrNodup (applyOp s o) := by
  cases o with
  | addAddress p a src => exact add_address_addr_nodup s p a src h
  | removeAddress p a => exact remove_address_addr_nodup s p a h
  | dialOp p => exact dial_addr_nodup s p h
  | setRtt p rtt => exact set_rtt_addr_nodup s p rtt h
  | setInfoOp p identify => exact set_info_addr_nodup s p identify h
  | swarmEventsOp => exact h
  | dropReceiverOp sid => exact h
  | notifyOp e => exact h
  | pollOp => exact poll_addr_nodup s h
  | connectedCb p => exact h
  | disconnectedCb p => exact h
  | connectionEstablished p conn =>
    exact add_address_addr_nodup s p (normalize_addr conn p) AddressSource.peer h
  | addressChange p oldc newc =>
    exact add_address_addr_nodup s p (normalize_addr newc p) AddressSource.peer h
  | connectionClosed p conn => exact h
  | addrReachFailure po a err => exact inject_addr_reach_failure_addr_nodup s po a err h
  | dialFailureCb p => exact inject_dial_failure_addr_nodup s p h
  | newListenerCb id => exact h
  | newListenAddrCb id a => exact h
  | expiredListenAddrCb id a => exact h
  | listenerErrorCb id err => exact h
  | listenerClosedCb id => exact h
  | newExternalAddrCb a => exact h
  | expiredExternalAddrCb a => exact h

theorem reachable_peers_addr_nodup (s : AddressBook) (h : Reachable s) :
    PeersAddrNodup s := by
  induction h with
  | init lid name key el pa =>
    intro q info hq
    exact Option.noConfusion hq
  | step s2 o h2 ih => exact applyOp_addr_nodup s2 o ih

theorem add_address_count_one (s : AddressBook) (p : PeerId) (a : Multiaddr)
    (src : AddressSource) (hnodup : PeersAddrNodup s)
    (hp : p ≠ s.local_peer_id)
    (hl : s.enable_loopback = true ∨ a.is_loopback = false) :
    ∃ info, lookupKey (add_address s p a src).1.peers p = some info ∧
      containsKey info.addresses (normalize_addr a p) = true ∧
      countKey info.addresses (normalize_addr a p) = 1 := by
  unfold add_address
  have hcond : ¬((!s.enable_loopback && a.is_loopback) = true) := by
    rcases hl with h | h <;> simp [h]
  rw [if_neg hp, if_neg hcond]
  dsimp only
  have h0 : (((lookupKey s.peers p).getD PeerInfo.empty).addresses.map Prod.fst).Nodup := by
    cases hlk : lookupKey s.peers p with
    | none => simp [PeerInfo.empty]
    | some i => exact hnodup p i hlk
  by_cases hc : containsKey ((lookupKey s.peers p).getD PeerInfo.empty).addresses
      (normalize_addr a p) = true
  · rw [if_pos hc]
    refine ⟨(lookupKey s.peers p).getD PeerInfo.empty, ?_, hc, ?_⟩
    · split
      · show lookupKey (setKey s.peers p _) p = _
        exact lookupKey_setKey_self _ _ _
      · show lookupKey (setKey s.peers p _) p = _
        exact lookupKey_setKey_self _ _ _
    · exact countKey_eq_one_of_nodup _ _ h0 hc
  · rw [if_neg hc]
    have hnone : lookupKey ((lookupKey s.peers p).getD PeerInfo.empty).addresses
        (normalize_addr a p) = none := by
      cases hx : lookupKey ((lookupKey s.peers p).getD PeerInfo.empty).addresses
          (normalize_addr a p) with
      | none => rfl
      | some v => exact absurd (by simp [containsKey, hx]) hc
    refine ⟨{ (lookupKey s.peers p).getD PeerInfo.empty with
        addresses := ((lookupKey s.peers p).getD PeerInfo.empty).addresses ++
          [(normalize_addr a p, src)] }, ?_, ?_, ?_⟩
    · split
      · show lookupKey (setKey s.peers p _) p = _
        exact lookupKey_setKey_self _ _ _
      · show lookupKey (setKey s.peers p _) p = _
        exact lookupKey_setKey_self _ _ _
    · show containsKey (((lookupKey s.peers p).getD PeerInfo.empty).addresses ++
        [(normalize_addr a p, src)]) (normalize_addr a p) = true
      rw [containsKey, lookupKey_append_none _ _ _ hnone]
      simp [lookupKey]
    · show countKey (((lookupKey s.peers p).getD PeerInfo.empty).addresses ++
        [(normalize_addr a p, src)]) (normalize_addr a p) = 1
      rw [countKey_append, countKey_eq_zero_of_lookup_none _ _ hnone]
      simp [countKey]

/-- C8 amended: in every reachable state, for a peer P other than the local
identity and an address A accepted by the address filter (loopback enabled
or A not loopback) that does not already carry a `p2p` suffix: after
`add_address(P, A)` the peer's store holds exactly one entry for the
normalized address `A' = A` with the identity suffix appended, and a
subsequent `add_address(P, A')` is a complete no-op (no event, state
unchanged) — so the pair of calls stores a single address-set entry and the
second call is a no-op for address-set membership. This holds whether P was
previously unknown or already known with other addresses. -/
theorem c8_amended_idempotent (s : AddressBook) (p : PeerId) (a : Multiaddr)
    (src src2 : AddressSource)
    (hreach : Reachable s)
    (hp : p ≠ s.local_peer_id)
    (hl : s.enable_loopback = true ∨ a.is_loopback = false)
    (hn : normalize_addr a p = a ++ [Proto.p2p p]) :
    ∃ info, lookupKey (add_address s p a src).1.peers p = some info ∧
      countKey info.addresses (a ++ [Proto.p2p p]) = 1 ∧
      add_address (add_address s p a src).1 p (a ++ [Proto.p2p p]) src2 =
        ((add_address s p a src).1, []) := by
  obtain ⟨info, h1, h2, h3⟩ := add_address_count_one s p a src
    (reachable_peers_addr_nodup s hreach) hp hl
  rw [hn] at h2 h3
  refine ⟨info, h1, h3, ?_⟩
  have hnorm2 : normalize_addr (a ++ [Proto.p2p p]) p = a ++ [Proto.p2p p] := by
    rw [← hn]
    exact normalize_addr_idem a p p
  have hc2 : containsKey info.addresses (normalize_addr (a ++ [Proto.p2p p]) p) = true := by
    rw [hnorm2]
    exact h2
  exact add_address_already_known _ p _ src2 info h1 hc2

/-- `/ip4/2.2.2.2/tcp/3333` (the tcp segment is opaque). -/
def addr2 : Multiaddr := [Proto.ip4 33686018, Proto.other 0]

/-- A reachable state in which peer 1 is already known with `addr2`. -/
def reach2 : AddressBook :=
  applyOp (AddressBook.new 0 "" 0 true true) (Op.addAddress 1 addr2 AddressSource.kad)

/-- Witness for the C8 amended theorem at a concrete reachable state in
which peer 1 is already known with a different address. -/
theorem c8_amended_witness :
    ∃ info, lookupKey (add_address reach2 1 addr1 AddressSource.mdns).1.peers 1 = some info ∧
      countKey info.addresses (addr1 ++ [Proto.p2p 1]) = 1 ∧
      add_address (add_address reach2 1 addr1 AddressSource.mdns).1 1
        (addr1 ++ [Proto.p2p 1]) AddressSource.user =
        ((add_address reach2 1 addr1 AddressSource.mdns).1, []) :=
  c8_amended_idempotent reach2 1 addr1 AddressSource.mdns AddressSource.user
    (Reachable.step _ _ (Reachable.init 0 "" 0 true true)) (by decide)
    (Or.inl (by decide)) (by decide)
